import Mathlib

/-!
Shallow embedding of the tenant authorization and cache-refresh subsystem of
the CloudflareManager Telegram bot (src/handlers.py, src/models.py), with
proofs of the testable properties stated in its specification.

The embedding models the post-initialization state of the manager (the
database session factory is set), the tenants table as a list of rows, the
bot_config table as a key-to-value map, and the remote Cloudflare gateway as
an environment recording the outcome of each listing call a refresh makes.
-/

namespace CFM

/-- Python truthiness of an optional string (both None and "" are falsy),
as tested by `if not self.super_admin_id` and `if account_id` in
src/handlers.py. -/
def strOptTruthy : Option String → Bool
  | none => false
  | some s => !(s == "")

/-- Python truthiness of an optional integer (both None and 0 are falsy),
as tested by `if tenant_id` and `if user_id` in src/handlers.py. -/
def natOptTruthy : Option Nat → Bool
  | none => false
  | some n => !(n == 0)

/-- Row of the tenants table (src/models.py, class Tenant). The
admin_user_id column is a string and holds the decimal form of a Telegram
user id; is_active is the soft-delete flag. -/
structure Tenant where
  id : Nat
  name : String
  cloudflare_token : String
  admin_user_id : String
  description : Option String := none
  is_active : Bool := true
  created_at : Nat := 0
  deriving Repr, DecidableEq

/-- Reference to a Cloudflare account as embedded in a zone object
(`zone.account.id` in src/handlers.py). -/
structure Account where
  id : String
  deriving Repr, DecidableEq

/-- Duck-typed provider zone object. A field of value none models a Python
object on which `hasattr` is false for that attribute (the refresh code
guards every access with `hasattr`); `account?` additionally models a falsy
`zone.account`. -/
structure Zone where
  id? : Option String
  name? : Option String
  account? : Option Account := none
  deriving Repr, DecidableEq

/-- Duck-typed provider tunnel object; `id?` is none when the object lacks
an id attribute. -/
structure Tunnel where
  id? : Option String
  deriving Repr, DecidableEq

/-- Shape of the zone-listing response handled in src/handlers.py lines
160 to 208: either an envelope carrying a `result` list attribute, or a
bare iterable list of zone objects. The source also tolerates a scalar
`result` and a scalar response, which the Cloudflare SDK never produces;
those collapse to singleton lists here. -/
inductive ZonesResp where
  | page (result : List Zone)
  | raw (items : List Zone)
  deriving Repr, DecidableEq

/-- Shape of the tunnel-listing response, handled exactly like the zone
response in src/handlers.py lines 210 to 220. -/
inductive TunnelsResp where
  | page (result : List Tunnel)
  | raw (items : List Tunnel)
  deriving Repr, DecidableEq

/-- Outcome of each remote call a single refresh may make: `.error` models
the underlying SDK call raising an exception with the given message. -/
structure Gateway where
  zones : Except String ZonesResp
  accounts : Except String (List Account)
  tunnels : Except String TunnelsResp
  deriving Repr

/-- Value stored in self.tenants_cache for one tenant id
(src/handlers.py lines 235 to 241). The two zone indices and the tunnel
index are Python dicts, modelled as association lists with unique keys and
insertion order preserved. -/
structure CacheEntry where
  tenant : Tenant
  domains : List (String × Zone)
  zones : List (String × Zone)
  tunnels : List (String × Tunnel)
  account_id : Option String
  deriving Repr, DecidableEq

/-- State of a CloudflareManager instance after init_db: the in-memory
super_admin_id attribute, the bot_config table (value of each key, none
when the row is absent), the tenants table, and the in-memory
tenants_cache mapping. -/
structure MState where
  super_admin_id : Option String
  botConfig : String → Option String
  tenants : List Tenant
  tenants_cache : Nat → Option CacheEntry

/-- CloudflareManager.set_config: upsert of a bot_config row
(src/handlers.py lines 105 to 112). -/
def set_config (st : MState) (key value : String) : MState :=
  { st with botConfig := fun k => if k == key then some value else st.botConfig k }

/-- CloudflareManager.get_config (src/handlers.py lines 114 to 124). -/
def get_config (st : MState) (key : String) : Option String :=
  st.botConfig key

/-- CloudflareManager.is_super_admin (src/handlers.py lines 55 to 74).
Returns the boolean result together with the possibly mutated state: when
the in-memory value is falsy the config row is consulted, and when that row
is absent the caller is adopted as super admin (one-time bootstrap). -/
def is_super_admin (st : MState) (user_id : Nat) : Bool × MState :=
  if strOptTruthy st.super_admin_id then
    (toString user_id == st.super_admin_id.getD "", st)
  else
    match st.botConfig "super_admin_id" with
    | some v => (toString user_id == v, { st with super_admin_id := some v })
    | none =>
      let st1 := set_config st "super_admin_id" (toString user_id)
      (true, { st1 with super_admin_id := some (toString user_id) })

/-- CloudflareManager.is_tenant_admin (src/handlers.py lines 76 to 95).
The truthiness test on tenant_id means both none and 0 select the
admin-of-any-active-tenant branch. The raw SQL filter comparing the
is_active column with the literal string true is read per the store
contract as the boolean column being true, and fetchone takes the first
matching row. -/
def is_tenant_admin (st : MState) (user_id : Nat) (tenant_id : Option Nat := none) : Bool :=
  if natOptTruthy tenant_id then
    match st.tenants.find? (fun t => t.id == tenant_id.getD 0 && t.is_active) with
    | some t => t.admin_user_id == toString user_id
    | none => false
  else
    decide (0 < st.tenants.countP (fun t => t.admin_user_id == toString user_id && t.is_active))

/-- CloudflareManager.has_access (src/handlers.py lines 97 to 103). The
is_super_admin call may mutate the state (bootstrap), so the possibly
mutated state is returned. -/
def has_access (st : MState) (user_id : Nat) (tenant_id : Option Nat := none) : Bool × MState :=
  let r := is_super_admin st user_id
  if r.1 then (true, r.2)
  else if natOptTruthy tenant_id then (is_tenant_admin r.2 user_id tenant_id, r.2)
  else (is_tenant_admin r.2 user_id none, r.2)

/-- CloudflareManager.get_tenants (src/handlers.py lines 126 to 139): all
active tenants for a super admin or an omitted user id, only the owned
active tenants otherwise. Short-circuit evaluation means is_super_admin
(and hence its bootstrap side effect) runs only for a truthy user_id. -/
def get_tenants (st : MState) (user_id : Option Nat := none) : List Tenant × MState :=
  if natOptTruthy user_id then
    let r := is_super_admin st (user_id.getD 0)
    if r.1 then (r.2.tenants.filter (fun t => t.is_active), r.2)
    else
      (r.2.tenants.filter
        (fun t => t.admin_user_id == toString (user_id.getD 0) && t.is_active), r.2)
  else (st.tenants.filter (fun t => t.is_active), st)

/-- CloudflareManager.get_tenant_by_id (src/handlers.py lines 141 to 148):
lookup by id with no is_active filter; scalar_one_or_none is the first
match since the id column is the primary key. -/
def get_tenant_by_id (st : MState) (tenant_id : Nat) : Option Tenant :=
  st.tenants.find? (fun t => t.id == tenant_id)

/-- Account id taken from the first returned zone when present and truthy
(src/handlers.py lines 160 to 169). -/
def accountFromZones : ZonesResp → Option String
  | .page [] => none
  | .page (z :: _) => z.account?.map (fun a => a.id)
  | .raw [] => none
  | .raw (z :: _) => z.account?.map (fun a => a.id)

/-- Fallback account resolution (src/handlers.py lines 171 to 178): when
the zone-derived id is falsy, list accounts and take the first; a failure
of that call, or an empty result, leaves the id as it was. -/
def fallbackAccountId (gw : Gateway) (acc : Option String) : Option String :=
  if strOptTruthy acc then acc
  else
    match gw.accounts with
    | .ok (a :: _) => some a.id
    | _ => acc

/-- Combined account-id derivation performed by a refresh. -/
def resolvedAccountId (gw : Gateway) (zr : ZonesResp) : Option String :=
  fallbackAccountId gw (accountFromZones zr)

/-- Normalization of the zone response to a list (src/handlers.py lines
198 to 208); an envelope with an empty result is iterated to the empty
list, matching the paginated SDK object. -/
def zonesListOf : ZonesResp → List Zone
  | .page result => result
  | .raw items => items

/-- Normalization of the tunnel response to a list (src/handlers.py lines
210 to 220). -/
def tunnelsListOf : TunnelsResp → List Tunnel
  | .page result => result
  | .raw items => items

/-- Python dict assignment `d[k] = v`: replace in place when the key is
present, append otherwise. -/
def dictInsert {α : Type} (m : List (String × α)) (k : String) (v : α) :
    List (String × α) :=
  if m.any (fun p => p.1 == k) then
    m.map (fun p => if p.1 == k then (k, v) else p)
  else m ++ [(k, v)]

/-- Body of the loop at src/handlers.py lines 226 to 230: a zone carrying
both an id and a name attribute is inserted into the zones index (first
component, keyed by id) and the domains index (second component, keyed by
name); any other zone is skipped entirely. -/
def zoneStep (acc : List (String × Zone) × List (String × Zone)) (z : Zone) :
    List (String × Zone) × List (String × Zone) :=
  match z.id?, z.name? with
  | some i, some n => (dictInsert acc.1 i z, dictInsert acc.2 n z)
  | _, _ => acc

/-- The loop of src/handlers.py lines 226 to 230 over the whole zone
list, starting from two empty dicts. -/
def buildZoneDicts (zl : List Zone) : List (String × Zone) × List (String × Zone) :=
  zl.foldl zoneStep ([], [])

/-- Body of the loop at src/handlers.py lines 231 to 233: a tunnel
carrying an id attribute is inserted into the tunnels index. -/
def tunnelStep (acc : List (String × Tunnel)) (tn : Tunnel) :
    List (String × Tunnel) :=
  match tn.id? with
  | some i => dictInsert acc i tn
  | none => acc

/-- The loop of src/handlers.py lines 231 to 233 over the whole tunnel
list, starting from an empty dict. -/
def buildTunnelsDict (tl : List Tunnel) : List (String × Tunnel) :=
  tl.foldl tunnelStep []

/-- Tunnel list obtained by a refresh whose zone listing returned zr
(src/handlers.py lines 180 to 192 and 210 to 220): the tunnels variable
starts as the empty list, the listing call is made only under a truthy
account id, and a raising call is caught leaving the empty list. -/
def refreshTunnelsList (gw : Gateway) (zr : ZonesResp) : List Tunnel :=
  if strOptTruthy (resolvedAccountId gw zr) then
    match gw.tunnels with
    | .ok tr => tunnelsListOf tr
    | .error _ => []
  else []

/-- CloudflareManager.refresh_tenant_domains (src/handlers.py lines 150 to
250). Returns the resulting state together with the message of the raised
exception, when one is raised. A missing tenant row is a silent no-op; a
zone-listing failure is logged and re-raised with the state untouched; a
tunnel-listing failure degrades to zero tunnels; on success a freshly
built entry replaces any previous entry for that tenant id. -/
def refresh_tenant_domains (gw : Gateway) (st : MState) (tenant_id : Nat) :
    MState × Option String :=
  match get_tenant_by_id st tenant_id with
  | none => (st, none)
  | some tenant =>
    match gw.zones with
    | .error e => (st, some e)
    | .ok zr =>
      let account_id := resolvedAccountId gw zr
      let tunnels_list : List Tunnel := refreshTunnelsList gw zr
      let zd := buildZoneDicts (zonesListOf zr)
      let entry : CacheEntry :=
        { tenant := tenant
          domains := zd.2
          zones := zd.1
          tunnels := buildTunnelsDict tunnels_list
          account_id := account_id }
      ({ st with
          tenants_cache := fun k => if k == tenant_id then some entry else st.tenants_cache k },
        none)

/-- Numeric value of a decimal digit character, used to decode the decimal
representation of a natural number. -/
def charVal (c : Char) : Nat := c.toNat - '0'.toNat

/-- Decode a list of decimal digit characters, most significant first. -/
def decodeDec (cs : List Char) : Nat :=
  cs.foldl (fun a c => a * 10 + charVal c) 0

/-- A provider zone object carrying both an id and a name attribute, the
condition of the guard at src/handlers.py line 227. -/
def wellShaped (z : Zone) : Bool := z.id?.isSome && z.name?.isSome

/-- Key under which a well-shaped zone is stored in the zones index. -/
def idKey (z : Zone) : String := z.id?.getD ""

/-- Key under which a well-shaped zone is stored in the domains index. -/
def nameKey (z : Zone) : String := z.name?.getD ""

/-- The well-shaped zones of a snapshot, in order. -/
def wellShapedZones (zl : List Zone) : List Zone := zl.filter wellShaped

/-- Cardinalities of the zones index and the domains index of a cache
entry, in that order. -/
def zoneIndexSizes (e : CacheEntry) : Nat × Nat := (e.zones.length, e.domains.length)

/-- True when some zone object indexed by the domains index of an entry is
not indexed by its zones index, that is, when the two indices do not index
the same set of zone objects. -/
def indicesDisagree (e : CacheEntry) : Bool :=
  (e.domains.map Prod.snd).any (fun z => !((e.zones.map Prod.snd).contains z))

/-- The active tenants of a store, in order, as selected by the is_active
filter of CloudflareManager.get_tenants. -/
def activeTenants (st : MState) : List Tenant :=
  st.tenants.filter (fun t => t.is_active)

/-- Test fixture: an active tenant with id 5 administered by user 100. -/
def tenantA : Tenant :=
  { id := 5, name := "Acme", cloudflare_token := "tok_a", admin_user_id := "100" }

/-- Test fixture: an active tenant with id 7 administered by user 200. -/
def tenantB : Tenant :=
  { id := 7, name := "Beta", cloudflare_token := "tok_b", admin_user_id := "200" }

/-- Test fixture: an inactive tenant with id 9 administered by user 300. -/
def tenantC : Tenant :=
  { id := 9, name := "Gone", cloudflare_token := "tok_c", admin_user_id := "300",
    is_active := false }

/-- Test fixture: manager state with no configured super admin, three
sample tenants and an empty cache. -/
def st0 : MState :=
  { super_admin_id := none
    botConfig := fun _ => none
    tenants := [tenantA, tenantB, tenantC]
    tenants_cache := fun _ => none }

/-- Test fixture: the zone-listing call raises. -/
def gwFail : Gateway :=
  { zones := .error "zones boom", accounts := .ok [], tunnels := .ok (.raw []) }

/-- Test fixture: well-shaped zone with an embedded account reference. -/
def zAcme : Zone :=
  { id? := some "z1", name? := some "acme.com", account? := some { id := "acc1" } }

/-- Test fixture: well-shaped zone without an account reference. -/
def zBeta : Zone :=
  { id? := some "z2", name? := some "beta.com" }

/-- Test fixture: malformed zone lacking an id attribute. -/
def zNoId : Zone :=
  { id? := none, name? := some "noid.com" }

/-- Test fixture: well-shaped zone named dup.com, with an account. -/
def zDupA : Zone :=
  { id? := some "za", name? := some "dup.com", account? := some { id := "acc1" } }

/-- Test fixture: a second well-shaped zone also named dup.com. -/
def zDupB : Zone :=
  { id? := some "zb", name? := some "dup.com" }

/-- Test fixture: well-shaped zone with id za and name one.com. -/
def zIdA1 : Zone :=
  { id? := some "za", name? := some "one.com" }

/-- Test fixture: a second well-shaped zone with the same id za. -/
def zIdA2 : Zone :=
  { id? := some "za", name? := some "two.com" }

/-- Test fixture: one well-shaped zone carrying an account reference, and a
tunnel-listing call that raises. -/
def gwTunnelFail : Gateway :=
  { zones := .ok (.raw [zAcme])
    accounts := .ok []
    tunnels := .error "tunnels boom" }

/-- Test fixture: two well-shaped zones sharing the same name. -/
def gwDupName : Gateway :=
  { zones := .ok (.raw [zDupA, zDupB])
    accounts := .ok []
    tunnels := .ok (.raw [{ id? := some "t1" }]) }

/-- Test fixture: two well-shaped zones sharing the same id. -/
def gwDupId : Gateway :=
  { zones := .ok (.raw [zIdA1, zIdA2])
    accounts := .ok [{ id := "accF" }]
    tunnels := .ok (.raw []) }

/-- Test fixture: two distinct well-shaped zones, one malformed zone
without an id, a tunnel with an id and a tunnel without one. -/
def gwOk : Gateway :=
  { zones := .ok (.page [zAcme, zBeta, zNoId])
    accounts := .ok []
    tunnels := .ok (.page [{ id? := some "t1" }, { id? := none }]) }

theorem toDigitsCore_eq_append (b : Nat) :
    ∀ (f n : Nat) (ds : List Char),
      Nat.toDigitsCore b f n ds = Nat.toDigitsCore b f n [] ++ ds
  | 0, _, _ => rfl
  | f + 1, n, ds => by
    simp only [Nat.toDigitsCore]
    by_cases h : n / b = 0
    · simp [h]
    · simp only [if_neg h]
      rw [toDigitsCore_eq_append b f (n / b) (Nat.digitChar (n % b) :: ds),
        toDigitsCore_eq_append b f (n / b) [Nat.digitChar (n % b)]]
      simp

theorem charVal_digitChar {d : Nat} (h : d < 10) :
    charVal (Nat.digitChar d) = d := by
  interval_cases d <;> decide

theorem decodeDec_append_singleton (xs : List Char) (c : Char) :
    decodeDec (xs ++ [c]) = decodeDec xs * 10 + charVal c := by
  simp [decodeDec, List.foldl_append]

theorem decodeDec_toDigitsCore :
    ∀ (f n : Nat), n < f → decodeDec (Nat.toDigitsCore 10 f n []) = n
  | 0, n, h => absurd h (Nat.not_lt_zero n)
  | f + 1, n, h => by
    simp only [Nat.toDigitsCore]
    by_cases hd : n / 10 = 0
    · rw [if_pos hd]
      have hn : n < 10 := by omega
      have hmod : n % 10 = n := Nat.mod_eq_of_lt hn
      simp [decodeDec, hmod, charVal_digitChar hn]
    · rw [if_neg hd]
      rw [toDigitsCore_eq_append, decodeDec_append_singleton]
      have h1 : n / 10 < f := by omega
      rw [decodeDec_toDigitsCore f (n / 10) h1,
        charVal_digitChar (Nat.mod_lt n (by omega))]
      omega

theorem toDigits_ne_nil (n : Nat) : Nat.toDigits 10 n ≠ [] := by
  unfold Nat.toDigits
  simp only [Nat.toDigitsCore]
  by_cases hd : n / 10 = 0
  · simp [hd]
  · rw [if_neg hd, toDigitsCore_eq_append]
    simp

theorem repr_injective : Function.Injective Nat.repr := by
  intro m n h
  have hdata : Nat.toDigits 10 m = Nat.toDigits 10 n := congrArg String.data h
  have hm := decodeDec_toDigitsCore (m + 1) m (Nat.lt_succ_self m)
  have hn := decodeDec_toDigitsCore (n + 1) n (Nat.lt_succ_self n)
  have hm2 : decodeDec (Nat.toDigits 10 m) = m := hm
  have hn2 : decodeDec (Nat.toDigits 10 n) = n := hn
  rw [← hm2, ← hn2, hdata]

theorem repr_ne_empty (n : Nat) : Nat.repr n ≠ "" := by
  intro h
  exact toDigits_ne_nil n (congrArg String.data h)

theorem toString_nat_eq_repr (n : Nat) : toString n = Nat.repr n := rfl

theorem toString_nat_truthy (n : Nat) : strOptTruthy (some (toString n)) = true := by
  simp only [strOptTruthy, Bool.not_eq_true', beq_eq_false_iff_ne, ne_eq,
    toString_nat_eq_repr]
  exact repr_ne_empty n

theorem toString_nat_ne {u v : Nat} (h : u ≠ v) :
    (toString u == toString v) = false := by
  simp only [beq_eq_false_iff_ne, ne_eq, toString_nat_eq_repr]
  exact fun hh => h (repr_injective hh)

theorem is_super_admin_preserves_tenants (st : MState) (u : Nat) :
    (is_super_admin st u).2.tenants = st.tenants := by
  unfold is_super_admin
  by_cases h : strOptTruthy st.super_admin_id
  · simp [h]
  · simp only [h, Bool.false_eq_true, if_false]
    cases hc : st.botConfig "super_admin_id" <;> simp [set_config]

theorem is_tenant_admin_congr {st st' : MState} (h : st.tenants = st'.tenants)
    (u : Nat) (tid : Option Nat) :
    is_tenant_admin st u tid = is_tenant_admin st' u tid := by
  unfold is_tenant_admin
  rw [h]

/-- C8: passing tenant_id = 0 is indistinguishable from omitting it, both
for is_tenant_admin and for has_access, because the tenant_id argument is
tested for truthiness rather than for presence. -/
theorem tenant_id_zero_is_omitted (st : MState) (caller : Nat) :
    is_tenant_admin st caller (some 0) = is_tenant_admin st caller none ∧
    has_access st caller (some 0) = has_access st caller none := by
  constructor
  · rfl
  · unfold has_access
    by_cases h : (is_super_admin st caller).1 <;> simp [h, natOptTruthy]

/-- C1: super-admin bootstrap is single-owner and idempotent. Starting
from a state with no configured super admin in memory or in bot_config,
the first caller U1 of is_super_admin receives true and the stored
super_admin_id config value becomes the decimal form of U1; any distinct
caller U2 afterwards receives false and the stored value still names U1. -/
theorem super_admin_bootstrap (st : MState) (U1 U2 : Nat)
    (hmem : strOptTruthy st.super_admin_id = false)
    (hcfg : st.botConfig "super_admin_id" = none)
    (hne : U2 ≠ U1) :
    (is_super_admin st U1).1 = true ∧
    get_config (is_super_admin st U1).2 "super_admin_id" = some (toString U1) ∧
    (is_super_admin (is_super_admin st U1).2 U2).1 = false ∧
    get_config (is_super_admin (is_super_admin st U1).2 U2).2 "super_admin_id"
      = some (toString U1) := by
  have hst1 : (is_super_admin st U1).2 =
      { set_config st "super_admin_id" (toString U1) with
          super_admin_id := some (toString U1) } := by
    unfold is_super_admin
    simp [hmem, hcfg]
  have hres1 : (is_super_admin st U1).1 = true := by
    unfold is_super_admin
    simp [hmem, hcfg]
  refine ⟨hres1, ?_, ?_, ?_⟩
  · rw [hst1]
    simp [get_config, set_config]
  · rw [hst1]
    unfold is_super_admin
    simp only [toString_nat_truthy U1, if_true, Option.getD_some]
    simpa using toString_nat_ne hne
  · rw [hst1]
    unfold is_super_admin
    simp [toString_nat_truthy U1, get_config, set_config]

/-- Witness for the super-admin bootstrap theorem at the concrete state
st0 with first caller 100 and second caller 200. -/
theorem super_admin_bootstrap_witness :
    strOptTruthy st0.super_admin_id = false ∧
    st0.botConfig "super_admin_id" = none ∧
    (200 : Nat) ≠ 100 ∧
    ((is_super_admin st0 100).1 = true ∧
      get_config (is_super_admin st0 100).2 "super_admin_id" = some (toString 100) ∧
      (is_super_admin (is_super_admin st0 100).2 200).1 = false ∧
      get_config (is_super_admin (is_super_admin st0 100).2 200).2 "super_admin_id"
        = some (toString 100)) :=
  ⟨rfl, rfl, by decide, super_admin_bootstrap st0 100 200 rfl rfl (by decide)⟩

/-- C9: implicit bootstrap leak through listing. With no super admin
configured anywhere, get_tenants called with any non-zero user id adopts
that user as the permanent super admin through its internal
is_super_admin call, and consequently returns all active tenants. -/
theorem get_tenants_bootstrap_leak (st : MState) (u : Nat)
    (hmem : strOptTruthy st.super_admin_id = false)
    (hcfg : st.botConfig "super_admin_id" = none)
    (hu : u ≠ 0) :
    (get_tenants st (some u)).1 = activeTenants st ∧
    (get_tenants st (some u)).2.super_admin_id = some (toString u) ∧
    get_config (get_tenants st (some u)).2 "super_admin_id" = some (toString u) := by
  unfold get_tenants is_super_admin activeTenants
  simp [natOptTruthy, hu, hmem, hcfg, set_config, get_config]

/-- Witness for the bootstrap-leak theorem at the concrete state st0 with
caller 123. -/
theorem get_tenants_bootstrap_leak_witness :
    strOptTruthy st0.super_admin_id = false ∧
    st0.botConfig "super_admin_id" = none ∧
    (123 : Nat) ≠ 0 ∧
    ((get_tenants st0 (some 123)).1 = activeTenants st0 ∧
      (get_tenants st0 (some 123)).2.super_admin_id = some (toString 123) ∧
      get_config (get_tenants st0 (some 123)).2 "super_admin_id" = some (toString 123)) :=
  ⟨rfl, rfl, by decide, get_tenants_bootstrap_leak st0 123 rfl rfl (by decide)⟩

/-- C2: tenant-scoped admin check. For every caller and non-zero tenant
id, is_tenant_admin returns true exactly when the store holds an active
tenant with that id whose admin_user_id equals the decimal form of the
caller id; the Nodup hypothesis is the primary-key uniqueness of the id
column; distinct callers map to distinct decimal strings, so two active
tenants with distinct admins are mutually isolated. -/
theorem is_tenant_admin_iff (st : MState) (caller tid : Nat) (htid : tid ≠ 0)
    (hids : (st.tenants.map (fun t => t.id)).Nodup) :
    is_tenant_admin st caller (some tid) = true ↔
      ∃ t, t ∈ st.tenants ∧ t.id = tid ∧ t.is_active = true ∧
        t.admin_user_id = toString caller := by
  unfold is_tenant_admin
  have htr : natOptTruthy (some tid) = true := by simp [natOptTruthy, htid]
  rw [if_pos htr]
  simp only [Option.getD_some]
  constructor
  · intro h
    cases hf : st.tenants.find? (fun t => t.id == tid && t.is_active) with
    | none =>
      rw [hf] at h
      simp at h
    | some t =>
      rw [hf] at h
      have hmem := List.mem_of_find?_eq_some hf
      have hp := List.find?_some hf
      have hp' := (Bool.and_eq_true _ _).mp hp
      refine ⟨t, hmem, by simpa using hp'.1, hp'.2, ?_⟩
      exact beq_iff_eq.mp h
  · rintro ⟨t, hmem, hid, hact, hadm⟩
    cases hf : st.tenants.find? (fun t => t.id == tid && t.is_active) with
    | none =>
      have hsome : (st.tenants.find? (fun t => t.id == tid && t.is_active)).isSome := by
        rw [List.find?_isSome]
        exact ⟨t, hmem, by simp [hid, hact]⟩
      rw [hf] at hsome
      simp at hsome
    | some t2 =>
      have hmem2 := List.mem_of_find?_eq_some hf
      have hp := List.find?_some hf
      have hid2 : t2.id = tid := by simpa using ((Bool.and_eq_true _ _).mp hp).1
      have heq : t2 = t :=
        List.inj_on_of_nodup_map hids hmem2 hmem (by rw [hid2, hid])
      rw [heq]
      simp [hadm]

/-- Witness for the tenant-admin characterization: in the concrete state
st0, user 100 administers tenant 5 but not tenant 7, whose admin is user
200. -/
theorem is_tenant_admin_iff_witness :
    ((7 : Nat) ≠ 0 ∧ (st0.tenants.map (fun t => t.id)).Nodup ∧
      (is_tenant_admin st0 100 (some 7) = true ↔
        ∃ t, t ∈ st0.tenants ∧ t.id = 7 ∧ t.is_active = true ∧
          t.admin_user_id = toString 100)) ∧
    ((5 : Nat) ≠ 0 ∧
      (is_tenant_admin st0 100 (some 5) = true ↔
        ∃ t, t ∈ st0.tenants ∧ t.id = 5 ∧ t.is_active = true ∧
          t.admin_user_id = toString 100)) :=
  ⟨⟨by decide, by decide, is_tenant_admin_iff st0 100 7 (by decide) (by decide)⟩,
    ⟨by decide, is_tenant_admin_iff st0 100 5 (by decide) (by decide)⟩⟩

/-- C6: access dominance. has_access returns true whenever is_super_admin
does, regardless of the tenant id argument, and otherwise coincides with
is_tenant_admin applied to the same caller and tenant id argument; with the
argument absent this is the admin-of-any-tenant check. -/
theorem has_access_characterization (st : MState) (u : Nat) (tid : Option Nat) :
    (has_access st u tid).1 = ((is_super_admin st u).1 || is_tenant_admin st u tid) := by
  unfold has_access
  by_cases h : (is_super_admin st u).1
  · simp [h]
  · have ht := is_tenant_admin_congr (is_super_admin_preserves_tenants st u) u tid
    by_cases htid : natOptTruthy tid
    · simp [h, htid, ht]
    · simp only [h, Bool.false_eq_true, if_false, htid, Bool.false_or]
      rw [← ht]
      unfold is_tenant_admin
      rw [if_neg htid]
      simp [natOptTruthy]

theorem mem_dictInsert {α : Type} {m : List (String × α)} {k : String} {v : α}
    {p : String × α} (h : p ∈ dictInsert m k v) : p ∈ m ∨ p = (k, v) := by
  unfold dictInsert at h
  by_cases ha : m.any (fun q => q.1 == k)
  · rw [if_pos ha] at h
    obtain ⟨q, hq, hfq⟩ := List.mem_map.mp h
    by_cases hk : (q.1 == k) = true
    · rw [if_pos hk] at hfq
      right
      exact hfq.symm
    · rw [if_neg hk] at hfq
      left
      exact hfq ▸ hq
  · rw [if_neg ha] at h
    rcases List.mem_append.mp h with h1 | h1
    · left
      exact h1
    · right
      simpa using h1

theorem key_mem_keys_dictInsert {α : Type} (m : List (String × α)) (k : String)
    (v : α) : k ∈ (dictInsert m k v).map Prod.fst := by
  unfold dictInsert
  by_cases ha : m.any (fun q => q.1 == k)
  · rw [if_pos ha]
    obtain ⟨q, hq, hqk⟩ := List.any_eq_true.mp ha
    rw [List.map_map]
    refine List.mem_map.mpr ⟨q, hq, ?_⟩
    simp [Function.comp, hqk]
  · rw [if_neg ha]
    simp

theorem keys_mono_dictInsert {α : Type} {m : List (String × α)} {q : String}
    (k : String) (v : α) (h : q ∈ m.map Prod.fst) :
    q ∈ (dictInsert m k v).map Prod.fst := by
  unfold dictInsert
  by_cases ha : m.any (fun r => r.1 == k)
  · rw [if_pos ha, List.map_map]
    obtain ⟨r, hr, hrfst⟩ := List.mem_map.mp h
    refine List.mem_map.mpr ⟨r, hr, ?_⟩
    by_cases hk : (r.1 == k) = true
    · have hkk : r.1 = k := beq_iff_eq.mp hk
      simp only [Function.comp_apply, if_pos hk]
      rw [← hrfst, ← hkk]
    · simp only [Function.comp_apply, if_neg hk]
      exact hrfst
  · rw [if_neg ha]
    simp [h]

theorem dictInsert_fresh {α : Type} {m : List (String × α)} {k : String} (v : α)
    (h : k ∉ m.map Prod.fst) : dictInsert m k v = m ++ [(k, v)] := by
  have ha : m.any (fun q => q.1 == k) = false := by
    rw [List.any_eq_false]
    intro q hq hbeq
    exact h (List.mem_map.mpr ⟨q, hq, beq_iff_eq.mp hbeq⟩)
  unfold dictInsert
  simp [ha]

theorem foldl_zoneStep_mem :
    ∀ (zl : List Zone) (acc : List (String × Zone) × List (String × Zone)),
      (∀ p ∈ (zl.foldl zoneStep acc).1, p ∈ acc.1 ∨
        ∃ z, z ∈ zl ∧ z.id? = some p.1 ∧ z.name?.isSome = true ∧ p.2 = z) ∧
      (∀ p ∈ (zl.foldl zoneStep acc).2, p ∈ acc.2 ∨
        ∃ z, z ∈ zl ∧ z.name? = some p.1 ∧ z.id?.isSome = true ∧ p.2 = z)
  | [], acc => by
    constructor <;> (intro p hp; exact Or.inl hp)
  | z :: zl, acc => by
    have ih := foldl_zoneStep_mem zl (zoneStep acc z)
    rw [List.foldl_cons]
    constructor
    · intro p hp
      rcases ih.1 p hp with h1 | ⟨w, hw, hwi, hwn, hwp⟩
      · cases hzi : z.id? with
        | none =>
          simp only [zoneStep, hzi] at h1
          exact Or.inl h1
        | some i =>
          cases hzn : z.name? with
          | none =>
            simp only [zoneStep, hzi, hzn] at h1
            exact Or.inl h1
          | some n =>
            simp only [zoneStep, hzi, hzn] at h1
            rcases mem_dictInsert h1 with h2 | h2
            · exact Or.inl h2
            · subst h2
              exact Or.inr ⟨z, List.mem_cons_self z zl, hzi, by simp [hzn], rfl⟩
      · exact Or.inr ⟨w, List.mem_cons_of_mem z hw, hwi, hwn, hwp⟩
    · intro p hp
      rcases ih.2 p hp with h1 | ⟨w, hw, hwn, hwi, hwp⟩
      · cases hzi : z.id? with
        | none =>
          simp only [zoneStep, hzi] at h1
          exact Or.inl h1
        | some i =>
          cases hzn : z.name? with
          | none =>
            simp only [zoneStep, hzi, hzn] at h1
            exact Or.inl h1
          | some n =>
            simp only [zoneStep, hzi, hzn] at h1
            rcases mem_dictInsert h1 with h2 | h2
            · exact Or.inl h2
            · subst h2
              exact Or.inr ⟨z, List.mem_cons_self z zl, hzn, by simp [hzi], rfl⟩
      · exact Or.inr ⟨w, List.mem_cons_of_mem z hw, hwn, hwi, hwp⟩

theorem foldl_zoneStep_keys_mono₁ :
    ∀ (zl : List Zone) (acc : List (String × Zone) × List (String × Zone))
      (k : String), k ∈ acc.1.map Prod.fst →
      k ∈ (zl.foldl zoneStep acc).1.map Prod.fst
  | [], _, _ => fun h => h
  | z :: zl, acc, k => fun h => by
    rw [List.foldl_cons]
    apply foldl_zoneStep_keys_mono₁ zl (zoneStep acc z) k
    cases hzi : z.id? with
    | none => simpa only [zoneStep, hzi] using h
    | some i =>
      cases hzn : z.name? with
      | none => simpa only [zoneStep, hzi, hzn] using h
      | some n =>
        simp only [zoneStep, hzi, hzn]
        exact keys_mono_dictInsert i z h

theorem foldl_zoneStep_keys_mono₂ :
    ∀ (zl : List Zone) (acc : List (String × Zone) × List (String × Zone))
      (k : String), k ∈ acc.2.map Prod.fst →
      k ∈ (zl.foldl zoneStep acc).2.map Prod.fst
  | [], _, _ => fun h => h
  | z :: zl, acc, k => fun h => by
    rw [List.foldl_cons]
    apply foldl_zoneStep_keys_mono₂ zl (zoneStep acc z) k
    cases hzi : z.id? with
    | none => simpa only [zoneStep, hzi] using h
    | some i =>
      cases hzn : z.name? with
      | none => simpa only [zoneStep, hzi, hzn] using h
      | some n =>
        simp only [zoneStep, hzi, hzn]
        exact keys_mono_dictInsert n z h

theorem foldl_zoneStep_keys :
    ∀ (zl : List Zone) (acc : List (String × Zone) × List (String × Zone))
      (z : Zone), z ∈ zl → ∀ i n, z.id? = some i → z.name? = some n →
      i ∈ (zl.foldl zoneStep acc).1.map Prod.fst ∧
      n ∈ (zl.foldl zoneStep acc).2.map Prod.fst
  | [], _, z, hz => absurd hz (List.not_mem_nil z)
  | w :: zl, acc, z, hz => fun i n hi hn => by
    rw [List.foldl_cons]
    rcases List.mem_cons.mp hz with h1 | h1
    · subst h1
      have hstep : zoneStep acc z = (dictInsert acc.1 i z, dictInsert acc.2 n z) := by
        unfold zoneStep
        rw [hi, hn]
      constructor
      · apply foldl_zoneStep_keys_mono₁
        rw [hstep]
        exact key_mem_keys_dictInsert acc.1 i z
      · apply foldl_zoneStep_keys_mono₂
        rw [hstep]
        exact key_mem_keys_dictInsert acc.2 n z
    · exact foldl_zoneStep_keys zl (zoneStep acc w) z h1 i n hi hn

theorem foldl_tunnelStep_mem :
    ∀ (tl : List Tunnel) (acc : List (String × Tunnel)),
      ∀ p ∈ tl.foldl tunnelStep acc, p ∈ acc ∨
        ∃ tn, tn ∈ tl ∧ tn.id? = some p.1 ∧ p.2 = tn
  | [], _ => fun _ hp => Or.inl hp
  | tn :: tl, acc => fun p hp => by
    rw [List.foldl_cons] at hp
    rcases foldl_tunnelStep_mem tl (tunnelStep acc tn) p hp with h1 | ⟨w, hw, hwi, hwp⟩
    · cases hti : tn.id? with
      | none =>
        simp only [tunnelStep, hti] at h1
        exact Or.inl h1
      | some i =>
        simp only [tunnelStep, hti] at h1
        rcases mem_dictInsert h1 with h2 | h2
        · exact Or.inl h2
        · subst h2
          exact Or.inr ⟨tn, List.mem_cons_self tn tl, hti, rfl⟩
    · exact Or.inr ⟨w, List.mem_cons_of_mem tn hw, hwi, hwp⟩

theorem foldl_zoneStep_eq_of_nodup :
    ∀ (zl : List Zone) (acc : List (String × Zone) × List (String × Zone)),
      ((wellShapedZones zl).map idKey).Nodup →
      ((wellShapedZones zl).map nameKey).Nodup →
      (∀ z ∈ wellShapedZones zl, idKey z ∉ acc.1.map Prod.fst) →
      (∀ z ∈ wellShapedZones zl, nameKey z ∉ acc.2.map Prod.fst) →
      zl.foldl zoneStep acc =
        (acc.1 ++ (wellShapedZones zl).map (fun z => (idKey z, z)),
         acc.2 ++ (wellShapedZones zl).map (fun z => (nameKey z, z)))
  | [], acc => by
    intro _ _ _ _
    simp [wellShapedZones]
  | z :: zl, acc => by
    intro hni hnn hfi hfn
    by_cases hw : wellShaped z = true
    · have hws : wellShapedZones (z :: zl) = z :: wellShapedZones zl := by
        simp [wellShapedZones, List.filter_cons, hw]
      have hw2 := (Bool.and_eq_true _ _).mp hw
      obtain ⟨i, hi⟩ := Option.isSome_iff_exists.mp hw2.1
      obtain ⟨n, hn⟩ := Option.isSome_iff_exists.mp hw2.2
      have hik : idKey z = i := by
        rw [idKey, hi]
        rfl
      have hnk : nameKey z = n := by
        rw [nameKey, hn]
        rfl
      rw [hws] at hni hnn hfi hfn
      rw [List.map_cons, List.nodup_cons] at hni hnn
      have hstep : zoneStep acc z = (dictInsert acc.1 i z, dictInsert acc.2 n z) := by
        unfold zoneStep
        rw [hi, hn]
      have hfresh1 : i ∉ acc.1.map Prod.fst := by
        have := hfi z (List.mem_cons_self z (wellShapedZones zl))
        rwa [hik] at this
      have hfresh2 : n ∉ acc.2.map Prod.fst := by
        have := hfn z (List.mem_cons_self z (wellShapedZones zl))
        rwa [hnk] at this
      have hf1 : ∀ w ∈ wellShapedZones zl,
          idKey w ∉ (acc.1 ++ [(i, z)]).map Prod.fst := by
        intro w hwmem hcon
        rw [List.map_append] at hcon
        rcases List.mem_append.mp hcon with hL | hR
        · exact hfi w (List.mem_cons_of_mem z hwmem) hL
        · simp only [List.map_cons, List.map_nil, List.mem_singleton] at hR
          exact hni.1 (List.mem_map.mpr ⟨w, hwmem, by rw [hR, hik]⟩)
      have hf2 : ∀ w ∈ wellShapedZones zl,
          nameKey w ∉ (acc.2 ++ [(n, z)]).map Prod.fst := by
        intro w hwmem hcon
        rw [List.map_append] at hcon
        rcases List.mem_append.mp hcon with hL | hR
        · exact hfn w (List.mem_cons_of_mem z hwmem) hL
        · simp only [List.map_cons, List.map_nil, List.mem_singleton] at hR
          exact hnn.1 (List.mem_map.mpr ⟨w, hwmem, by rw [hR, hnk]⟩)
      rw [List.foldl_cons, hstep, dictInsert_fresh z hfresh1, dictInsert_fresh z hfresh2]
      rw [foldl_zoneStep_eq_of_nodup zl (acc.1 ++ [(i, z)], acc.2 ++ [(n, z)])
        hni.2 hnn.2 hf1 hf2]
      rw [hws]
      simp [hik, hnk, List.append_assoc]
    · have hws : wellShapedZones (z :: zl) = wellShapedZones zl := by
        simp [wellShapedZones, List.filter_cons, hw]
      have hstep : zoneStep acc z = acc := by
        cases hzi : z.id? with
        | none => simp [zoneStep, hzi]
        | some i =>
          cases hzn : z.name? with
          | none => simp [zoneStep, hzi, hzn]
          | some n =>
            exfalso
            apply hw
            unfold wellShaped
            rw [hzi, hzn]
            rfl
      rw [hws] at hni hnn hfi hfn
      rw [List.foldl_cons, hstep, hws]
      exact foldl_zoneStep_eq_of_nodup zl acc hni hnn hfi hfn

theorem refresh_success_shape (gw : Gateway) (st : MState) (tid : Nat)
    (t : Tenant) (zr : ZonesResp)
    (ht : get_tenant_by_id st tid = some t)
    (hz : gw.zones = .ok zr) :
    (refresh_tenant_domains gw st tid).2 = none ∧
    (refresh_tenant_domains gw st tid).1.tenants_cache tid =
      some { tenant := t
             domains := (buildZoneDicts (zonesListOf zr)).2
             zones := (buildZoneDicts (zonesListOf zr)).1
             tunnels := buildTunnelsDict (refreshTunnelsList gw zr)
             account_id := resolvedAccountId gw zr } ∧
    ∀ k, k ≠ tid → (refresh_tenant_domains gw st tid).1.tenants_cache k =
      st.tenants_cache k := by
  unfold refresh_tenant_domains
  rw [ht, hz]
  refine ⟨rfl, by simp, ?_⟩
  intro k hk
  simp [hk]

/-- C3: cache untouched on hard failure. When the tenant resolves and the
zone-listing call raises, refresh re-raises the same failure and returns
with the state, in particular the whole cache mapping, exactly as it was. -/
theorem refresh_cache_untouched_on_failure (gw : Gateway) (st : MState)
    (tid : Nat) (t : Tenant) (e : String)
    (ht : get_tenant_by_id st tid = some t)
    (hz : gw.zones = .error e) :
    refresh_tenant_domains gw st tid = (st, some e) := by
  unfold refresh_tenant_domains
  rw [ht, hz]

/-- Witness for the hard-failure theorem: tenant 5 of st0 with the
gateway whose zone listing raises "zones boom". -/
theorem refresh_cache_untouched_on_failure_witness :
    get_tenant_by_id st0 5 = some tenantA ∧
    gwFail.zones = .error "zones boom" ∧
    refresh_tenant_domains gwFail st0 5 = (st0, some "zones boom") :=
  ⟨rfl, rfl,
    refresh_cache_untouched_on_failure gwFail st0 5 tenantA "zones boom" rfl rfl⟩

/-- C7 amended: refresh silently skips a tenant id only when no tenant
record with that id exists at all; the result is the unchanged state with
no exception, for every gateway, so no remote call can influence it. The
original claim also covered inactive tenants, which the code does refresh
(see the counterexample). -/
theorem refresh_skips_missing_tenant (gw : Gateway) (st : MState) (tid : Nat)
    (ht : get_tenant_by_id st tid = none) :
    refresh_tenant_domains gw st tid = (st, none) := by
  unfold refresh_tenant_domains
  rw [ht]

/-- Witness for the silent-skip theorem: st0 has no tenant with id 999. -/
theorem refresh_skips_missing_tenant_witness :
    get_tenant_by_id st0 999 = none ∧
    refresh_tenant_domains gwOk st0 999 = (st0, none) :=
  ⟨rfl, refresh_skips_missing_tenant gwOk st0 999 rfl⟩

/-- Counterexample to C7 as stated: tenant 9 of st0 exists but is
inactive, yet refresh still proceeds, committing a cache entry for it
instead of leaving the cache unchanged. -/
theorem refresh_inactive_tenant_counterexample :
    tenantC.is_active = false ∧
    get_tenant_by_id st0 9 = some tenantC ∧
    st0.tenants_cache 9 = none ∧
    ((refresh_tenant_domains gwOk st0 9).1.tenants_cache 9).isSome = true ∧
    (refresh_tenant_domains gwOk st0 9).2 = none := by
  refine ⟨rfl, rfl, rfl, ?_, rfl⟩
  rfl

/-- C4: graceful tunnel degradation. When the tenant resolves, the zone
listing succeeds, the account id resolves to a truthy value and the
tunnel-listing call raises, refresh completes without raising and commits
an entry for the tenant whose tunnels index is empty. -/
theorem refresh_tunnel_degradation (gw : Gateway) (st : MState) (tid : Nat)
    (t : Tenant) (zr : ZonesResp) (te : String)
    (ht : get_tenant_by_id st tid = some t)
    (hz : gw.zones = .ok zr)
    (hacc : strOptTruthy (resolvedAccountId gw zr) = true)
    (htun : gw.tunnels = .error te) :
    (refresh_tenant_domains gw st tid).2 = none ∧
    ∃ entry, (refresh_tenant_domains gw st tid).1.tenants_cache tid = some entry ∧
      entry.tunnels = [] := by
  obtain ⟨h1, h2, _⟩ := refresh_success_shape gw st tid t zr ht hz
  refine ⟨h1, _, h2, ?_⟩
  have : refreshTunnelsList gw zr = [] := by
    unfold refreshTunnelsList
    rw [if_pos hacc, htun]
  simp [this, buildTunnelsDict]

/-- Witness for the tunnel-degradation theorem: tenant 5 of st0 with the
gateway whose tunnel listing raises while the zone listing returns one
zone carrying account acc1. -/
theorem refresh_tunnel_degradation_witness :
    get_tenant_by_id st0 5 = some tenantA ∧
    gwTunnelFail.zones = .ok (.raw [zAcme]) ∧
    strOptTruthy (resolvedAccountId gwTunnelFail (.raw [zAcme])) = true ∧
    gwTunnelFail.tunnels = .error "tunnels boom" ∧
    ((refresh_tenant_domains gwTunnelFail st0 5).2 = none ∧
      ∃ entry, (refresh_tenant_domains gwTunnelFail st0 5).1.tenants_cache 5 =
        some entry ∧ entry.tunnels = []) :=
  ⟨rfl, rfl, rfl, rfl,
    refresh_tunnel_degradation gwTunnelFail st0 5 tenantA (.raw [zAcme])
      "tunnels boom" rfl rfl rfl rfl⟩

/-- Counterexample to C5 as stated: with two well-shaped zones sharing
the name dup.com, a successful refresh commits an entry whose zones index
has two keys while its domains index has one, so the two indices do not
have equal cardinality. -/
theorem cache_cardinality_counterexample :
    get_tenant_by_id st0 5 = some tenantA ∧
    gwDupName.zones = .ok (.raw [zDupA, zDupB]) ∧
    Option.map zoneIndexSizes
      ((refresh_tenant_domains gwDupName st0 5).1.tenants_cache 5) = some (2, 1) :=
  ⟨rfl, rfl, rfl⟩

/-- C5 amended: after a successful refresh the committed entry holds the
two indices built by the zone loop from the one zone-list snapshot of the
response (replacing, not merging, any prior entry); every pair of the
zones index is keyed by its zone object id and that object carries a name
that is a key of the domains index, and symmetrically; and the two
indices have equal cardinality provided no two zones carrying both
attributes share an id or share a name. -/
theorem cache_atomic_on_success (gw : Gateway) (st : MState) (tid : Nat)
    (t : Tenant) (zr : ZonesResp)
    (ht : get_tenant_by_id st tid = some t)
    (hz : gw.zones = .ok zr) :
    (refresh_tenant_domains gw st tid).2 = none ∧
    ∃ entry, (refresh_tenant_domains gw st tid).1.tenants_cache tid = some entry ∧
      entry.zones = (buildZoneDicts (zonesListOf zr)).1 ∧
      entry.domains = (buildZoneDicts (zonesListOf zr)).2 ∧
      (∀ p ∈ entry.zones, p.2.id? = some p.1 ∧
        nameKey p.2 ∈ entry.domains.map Prod.fst) ∧
      (∀ p ∈ entry.domains, p.2.name? = some p.1 ∧
        idKey p.2 ∈ entry.zones.map Prod.fst) ∧
      (((wellShapedZones (zonesListOf zr)).map idKey).Nodup →
        ((wellShapedZones (zonesListOf zr)).map nameKey).Nodup →
        entry.zones.length = entry.domains.length) := by
  obtain ⟨h1, h2, _⟩ := refresh_success_shape gw st tid t zr ht hz
  refine ⟨h1, _, h2, rfl, rfl, ?_, ?_, ?_⟩
  · intro p hp
    rcases (foldl_zoneStep_mem (zonesListOf zr) ([], [])).1 p hp with
      h | ⟨z, hzmem, hzi, hzn, hzp⟩
    · simp at h
    · obtain ⟨n, hn⟩ := Option.isSome_iff_exists.mp hzn
      have hkeys := foldl_zoneStep_keys (zonesListOf zr) ([], []) z hzmem p.1 n hzi hn
      refine ⟨by rw [hzp]; exact hzi, ?_⟩
      rw [hzp, nameKey, hn]
      exact hkeys.2
  · intro p hp
    rcases (foldl_zoneStep_mem (zonesListOf zr) ([], [])).2 p hp with
      h | ⟨z, hzmem, hzn, hzi, hzp⟩
    · simp at h
    · obtain ⟨i, hi⟩ := Option.isSome_iff_exists.mp hzi
      have hkeys := foldl_zoneStep_keys (zonesListOf zr) ([], []) z hzmem i p.1 hi hzn
      refine ⟨by rw [hzp]; exact hzn, ?_⟩
      rw [hzp, idKey, hi]
      exact hkeys.1
  · intro hni hnn
    have hb := foldl_zoneStep_eq_of_nodup (zonesListOf zr) ([], []) hni hnn
      (by simp) (by simp)
    show (buildZoneDicts (zonesListOf zr)).1.length =
      (buildZoneDicts (zonesListOf zr)).2.length
    unfold buildZoneDicts
    rw [hb]
    simp

/-- Witness for the amended cache-atomicity theorem: tenant 5 of st0
refreshed through the gateway returning zones acme.com, beta.com and one
zone without an id. -/
theorem cache_atomic_on_success_witness :
    get_tenant_by_id st0 5 = some tenantA ∧
    gwOk.zones = .ok (.page [zAcme, zBeta, zNoId]) ∧
    ((refresh_tenant_domains gwOk st0 5).2 = none ∧
      ∃ entry, (refresh_tenant_domains gwOk st0 5).1.tenants_cache 5 = some entry ∧
        entry.zones = (buildZoneDicts (zonesListOf (.page [zAcme, zBeta, zNoId]))).1 ∧
        entry.domains = (buildZoneDicts (zonesListOf (.page [zAcme, zBeta, zNoId]))).2 ∧
        (∀ p ∈ entry.zones, p.2.id? = some p.1 ∧
          nameKey p.2 ∈ entry.domains.map Prod.fst) ∧
        (∀ p ∈ entry.domains, p.2.name? = some p.1 ∧
          idKey p.2 ∈ entry.zones.map Prod.fst) ∧
        (((wellShapedZones (zonesListOf (.page [zAcme, zBeta, zNoId]))).map idKey).Nodup →
          ((wellShapedZones (zonesListOf (.page [zAcme, zBeta, zNoId]))).map nameKey).Nodup →
          entry.zones.length = entry.domains.length)) :=
  ⟨rfl, rfl, cache_atomic_on_success gwOk st0 5 tenantA (.page [zAcme, zBeta, zNoId]) rfl rfl⟩

/-- Counterexample to C10 as stated: with two well-shaped zones sharing
the id za, a successful refresh commits an entry whose domains index
indexes a zone object (the one named one.com) that the zones index does
not index, so the two indices do not index the same set of zone objects. -/
theorem cache_index_sets_counterexample :
    get_tenant_by_id st0 5 = some tenantA ∧
    gwDupId.zones = .ok (.raw [zIdA1, zIdA2]) ∧
    Option.map indicesDisagree
      ((refresh_tenant_domains gwDupId st0 5).1.tenants_cache 5) = some true :=
  ⟨rfl, rfl, rfl⟩

/-- C10 amended: every entry committed by a successful refresh holds in
both zone indices only zone objects carrying both an id and a name; a
zone lacking either attribute appears in neither index; the tunnels index
holds only tunnel objects carrying an id; and the two zone indices index
the same set of zone objects provided no two well-shaped zones of the
snapshot share an id or share a name. -/
theorem cache_wellformed_entries (gw : Gateway) (st : MState) (tid : Nat)
    (t : Tenant) (zr : ZonesResp)
    (ht : get_tenant_by_id st tid = some t)
    (hz : gw.zones = .ok zr) :
    ∃ entry, (refresh_tenant_domains gw st tid).1.tenants_cache tid = some entry ∧
      (∀ p ∈ entry.zones, p.2.id?.isSome = true ∧ p.2.name?.isSome = true) ∧
      (∀ p ∈ entry.domains, p.2.id?.isSome = true ∧ p.2.name?.isSome = true) ∧
      (∀ z ∈ zonesListOf zr, wellShaped z = false →
        z ∉ entry.zones.map Prod.snd ∧ z ∉ entry.domains.map Prod.snd) ∧
      (∀ p ∈ entry.tunnels, p.2.id?.isSome = true) ∧
      (((wellShapedZones (zonesListOf zr)).map idKey).Nodup →
        ((wellShapedZones (zonesListOf zr)).map nameKey).Nodup →
        entry.zones.map Prod.snd = entry.domains.map Prod.snd) := by
  obtain ⟨h1, h2, _⟩ := refresh_success_shape gw st tid t zr ht hz
  refine ⟨_, h2, ?_, ?_, ?_, ?_, ?_⟩
  · intro p hp
    rcases (foldl_zoneStep_mem (zonesListOf zr) ([], [])).1 p hp with
      h | ⟨z, _, hzi, hzn, hzp⟩
    · simp at h
    · rw [hzp]
      refine ⟨by rw [hzi]; rfl, hzn⟩
  · intro p hp
    rcases (foldl_zoneStep_mem (zonesListOf zr) ([], [])).2 p hp with
      h | ⟨z, _, hzn, hzi, hzp⟩
    · simp at h
    · rw [hzp]
      refine ⟨hzi, by rw [hzn]; rfl⟩
  · intro z hzmem hbad
    constructor
    · intro hcon
      obtain ⟨p, hp, hps⟩ := List.mem_map.mp hcon
      rcases (foldl_zoneStep_mem (zonesListOf zr) ([], [])).1 p hp with
        h | ⟨w, _, hwi, hwn, hwp⟩
      · simp at h
      · have hww : wellShaped w = true := by
          unfold wellShaped
          rw [hwi]
          simpa using hwn
        rw [← hps, hwp] at hbad
        rw [hww] at hbad
        cases hbad
    · intro hcon
      obtain ⟨p, hp, hps⟩ := List.mem_map.mp hcon
      rcases (foldl_zoneStep_mem (zonesListOf zr) ([], [])).2 p hp with
        h | ⟨w, _, hwn, hwi, hwp⟩
      · simp at h
      · have hww : wellShaped w = true := by
          unfold wellShaped
          rw [hwn]
          simpa [Bool.and_comm] using hwi
        rw [← hps, hwp] at hbad
        rw [hww] at hbad
        cases hbad
  · intro p hp
    rcases foldl_tunnelStep_mem (refreshTunnelsList gw zr) [] p hp with
      h | ⟨tn, _, hti, htp⟩
    · simp at h
    · rw [htp, hti]
      rfl
  · intro hni hnn
    have hb := foldl_zoneStep_eq_of_nodup (zonesListOf zr) ([], []) hni hnn
      (by simp) (by simp)
    show (buildZoneDicts (zonesListOf zr)).1.map Prod.snd =
      (buildZoneDicts (zonesListOf zr)).2.map Prod.snd
    unfold buildZoneDicts
    rw [hb]
    simp

/-- Witness for the well-formed-entries theorem: tenant 5 of st0
refreshed through the gateway returning two well-shaped zones, one zone
without an id, and tunnels with and without ids. -/
theorem cache_wellformed_entries_witness :
    get_tenant_by_id st0 5 = some tenantA ∧
    gwOk.zones = .ok (.page [zAcme, zBeta, zNoId]) ∧
    (∃ entry, (refresh_tenant_domains gwOk st0 5).1.tenants_cache 5 = some entry ∧
      (∀ p ∈ entry.zones, p.2.id?.isSome = true ∧ p.2.name?.isSome = true) ∧
      (∀ p ∈ entry.domains, p.2.id?.isSome = true ∧ p.2.name?.isSome = true) ∧
      (∀ z ∈ zonesListOf (.page [zAcme, zBeta, zNoId]), wellShaped z = false →
        z ∉ entry.zones.map Prod.snd ∧ z ∉ entry.domains.map Prod.snd) ∧
      (∀ p ∈ entry.tunnels, p.2.id?.isSome = true) ∧
      (((wellShapedZones (zonesListOf (.page [zAcme, zBeta, zNoId]))).map idKey).Nodup →
        ((wellShapedZones (zonesListOf (.page [zAcme, zBeta, zNoId]))).map nameKey).Nodup →
        entry.zones.map Prod.snd = entry.domains.map Prod.snd)) :=
  ⟨rfl, rfl, cache_wellformed_entries gwOk st0 5 tenantA (.page [zAcme, zBeta, zNoId]) rfl rfl⟩

end CFM
